import Mathlib

/-! Verification of scripts/convert-pythia.py: a single-pass conversion of a
raster image (black line art on a white background) into a white-outline-on-
transparent RGBA image, followed by a centered square crop. Pixel channels are
8-bit values modelled as naturals; the script's floating-point arithmetic is
modelled by exact rational arithmetic over the same decimal constants. -/

/-- One RGBA pixel: the four 8-bit channel values of the numpy array at one
position (channels 0..3 = red, green, blue, alpha). -/
structure RGBA where
  r : Nat
  g : Nat
  b : Nat
  a : Nat
deriving Repr, DecidableEq

/-- A raster image as its row-major pixel grid: one list per row, as the numpy
array obtained from the loaded PIL image. -/
abbrev Image := List (List RGBA)

/-- Luminance of one pixel: 0.299 * r + 0.587 * g + 0.114 * b, computed in the
script over the red, green and blue channels only. -/
def luminance (p : RGBA) : ℚ := 0.299 * p.r + 0.587 * p.g + 0.114 * p.b

/-- The line-mask entry of one pixel: luminance strictly below 180 counts as
line art (line_mask = luminance < 180). -/
def lineMask (p : RGBA) : Bool := luminance p < 180

/-- np.clip x lo hi: x forced into the closed interval from lo to hi. -/
def npClip (x lo hi : ℚ) : ℚ := min hi (max lo x)

/-- Conversion of a clipped value to uint8 as astype(np.uint8) does: truncation
toward zero, which on the nonnegative clipped range is the floor. -/
def toByte (x : ℚ) : Nat := (⌊x⌋).toNat

/-- The alpha array before masking: np.clip ((255 - luminance) * 1.8, 0, 255)
cast to uint8. -/
def alphaClipped (p : RGBA) : Nat := toByte (npClip ((255 - luminance p) * 1.8) 0 255)

/-- The final alpha of one pixel: the clipped value where the line mask holds,
zero elsewhere (alpha[~line_mask] = 0). -/
def alphaOf (p : RGBA) : Nat := if lineMask p then alphaClipped p else 0

/-- One pixel of new_data: the RGB channels forced to white (255, 255, 255) and
the computed alpha. -/
def convertPixel (p : RGBA) : RGBA := ⟨255, 255, 255, alphaOf p⟩

/-- The output image new_data: the pixelwise conversion applied over the whole
grid, preserving its shape. -/
def convertImage (img : Image) : Image := img.map (fun row => row.map convertPixel)

/-- Width of an image: the length of its first row (the second numpy axis,
w in `w, h = result.size`). -/
def width (img : Image) : Nat := (img.headD []).length

/-- Height of an image: its number of rows (the first numpy axis). -/
def height (img : Image) : Nat := img.length

/-- The pixel at row i, column j, when both indices are in range. -/
def pixelAt (img : Image) (i j : Nat) : Option RGBA :=
  img[i]?.bind (fun row => row[j]?)

/-- PIL Image.crop with box (left, top, right, bottom): keeps the rows with
top ≤ i < bottom and, within them, the columns with left ≤ j < right. -/
def cropImage (img : Image) (left top right bottom : Nat) : Image :=
  ((img.drop top).take (bottom - top)).map (fun row => (row.drop left).take (right - left))

/-- Left offset of the centered square crop: left = (w - s) // 2 with
s = min w h, integer floor division. -/
def cropLeft (w h : Nat) : Nat := (w - min w h) / 2

/-- Top offset of the centered square crop: top = (h - s) // 2 with
s = min w h, integer floor division. -/
def cropTop (w h : Nat) : Nat := (h - min w h) / 2

/-- The centered square crop as computed at the end of the script:
s = min w h and box (left, top, left + s, top + s). -/
def squareCrop (img : Image) : Image :=
  cropImage img (cropLeft (width img) (height img)) (cropTop (width img) (height img))
    (cropLeft (width img) (height img) + min (width img) (height img))
    (cropTop (width img) (height img) + min (width img) (height img))

/-- Destination path of the main output PNG, hardcoded in the script. -/
def outputPath : String := "/Users/leguplabs/Desktop/hot-honey/public/pythia-outline.png"

/-- Destination path of the square-crop PNG, hardcoded in the script. -/
def squarePath : String := "/Users/leguplabs/Desktop/hot-honey/public/pythia-outline-square.png"

/-- Modelled from the spec: the outcome of the run's external steps, which are
not part of the script itself (the imaging backend's load and the two file
writes). loadOk stands for "the source decodes" (else LoadError), and the two
write flags for "the destination is writable" (else WriteError). -/
structure RunEnv where
  loadOk : Bool
  mainWriteOk : Bool
  squareWriteOk : Bool
deriving Repr, DecidableEq

/-- Modelled from the spec: the filesystem trace of one run and whether it ran
to completion. The steps follow the source order: load, convert in memory,
save the main output, compute the square crop, save the square crop. A failing
step raises and aborts the run immediately (spec: no retries, no local
recovery), keeping on disk exactly the files already written. -/
def runScript (img : Image) (env : RunEnv) : List (String × Image) × Bool :=
  if env.loadOk then
    let result := convertImage img
    if env.mainWriteOk then
      if env.squareWriteOk then
        ([(outputPath, result), (squarePath, squareCrop result)], true)
      else ([(outputPath, result)], false)
    else ([], false)
  else ([], false)

/-- The alpha formula exactly as the claim words it, for comparison with the
code's alphaOf: the value (255 - luminance) * 1.8 rounded to the nearest
integer, then clamped to [0, 255]. -/
def alphaSpecRounded (p : RGBA) : Nat :=
  (min 255 (max 0 (round ((255 - luminance p) * 1.8)))).toNat

/-- Agreement of two pixels on their red, green and blue channels (the alpha
channel is left free). -/
def sameRGB (p q : RGBA) : Prop := p.r = q.r ∧ p.g = q.g ∧ p.b = q.b

/-- The 4x4 all-black source of the spec's first example (opaque black). -/
def black4 : Image := List.replicate 4 (List.replicate 4 ⟨0, 0, 0, 255⟩)

/-- The 4x4 all-white source of the spec's second example (opaque white). -/
def white4 : Image := List.replicate 4 (List.replicate 4 ⟨255, 255, 255, 255⟩)

/-- A 10x4 rectangular image used for the spec's square-crop example. -/
def img10x4 : Image := List.replicate 4 (List.replicate 10 ⟨0, 0, 0, 255⟩)

/-- Luminance is nonnegative: all three channel values are naturals and all
three weights are positive. -/
theorem luminance_nonneg (p : RGBA) : 0 ≤ luminance p := by
  unfold luminance
  positivity

/-- On the line mask, the pre-clip alpha value (255 - luminance) * 1.8 is
strictly above 135. -/
theorem alpha_product_gt (p : RGBA) (h : luminance p < 180) :
    (135 : ℚ) < (255 - luminance p) * 1.8 := by
  have h75 : (75 : ℚ) < 255 - luminance p := by linarith
  calc (135 : ℚ) = 75 * 1.8 := by norm_num
    _ < (255 - luminance p) * 1.8 := by
        apply mul_lt_mul_of_pos_right h75
        norm_num

/-- On the line mask, the clipped alpha byte is at least 135. -/
theorem alphaClipped_ge (p : RGBA) (h : luminance p < 180) : 135 ≤ alphaClipped p := by
  have hx : (135 : ℚ) < (255 - luminance p) * 1.8 := alpha_product_gt p h
  have hclip : (135 : ℚ) ≤ npClip ((255 - luminance p) * 1.8) 0 255 := by
    unfold npClip
    refine le_min (by norm_num) ?_
    exact le_max_of_le_right hx.le
  have hfloor : (135 : ℤ) ≤ ⌊npClip ((255 - luminance p) * 1.8) 0 255⌋ := by
    rw [Int.le_floor]
    exact_mod_cast hclip
  unfold alphaClipped toByte
  have := Int.toNat_le_toNat hfloor
  simpa using this

/-- The clipped alpha byte is antitone in luminance. -/
theorem alphaClipped_antitone (p q : RGBA) (h : luminance p ≤ luminance q) :
    alphaClipped q ≤ alphaClipped p := by
  unfold alphaClipped toByte npClip
  apply Int.toNat_le_toNat
  apply Int.floor_le_floor
  have hmul : (255 - luminance q) * 1.8 ≤ (255 - luminance p) * 1.8 := by
    apply mul_le_mul_of_nonneg_right (by linarith) (by norm_num)
  exact min_le_min le_rfl (max_le_max le_rfl hmul)

/-- With the line mask true, alphaOf is the clipped byte. -/
theorem alphaOf_masked (p : RGBA) (h : luminance p < 180) : alphaOf p = alphaClipped p := by
  unfold alphaOf lineMask
  simp [h]

/-- With the line mask false, alphaOf is zero. -/
theorem alphaOf_unmasked (p : RGBA) (h : 180 ≤ luminance p) : alphaOf p = 0 := by
  unfold alphaOf lineMask
  simp [not_lt.mpr h]

/-- C1 (amended): for every masked pixel (luminance < 180), the output alpha is
the value (255 - luminance) * 1.8 clamped to [0, 255] and truncated (floored)
to an integer, not rounded to the nearest integer. -/
theorem alpha_formula_truncated (p : RGBA) (h : luminance p < 180) :
    alphaOf p = (min 255 (max 0 ⌊(255 - luminance p) * 1.8⌋)).toNat := by
  rw [alphaOf_masked p h]
  unfold alphaClipped toByte npClip
  have hx : (135 : ℚ) < (255 - luminance p) * 1.8 := alpha_product_gt p h
  have hx0 : (0 : ℚ) ≤ (255 - luminance p) * 1.8 := by linarith
  rw [max_eq_right hx0]
  have hf0 : 0 ≤ ⌊(255 - luminance p) * 1.8⌋ := Int.floor_nonneg.mpr hx0
  rw [max_eq_right hf0]
  rcases le_total ((255 - luminance p) * 1.8) 255 with hle | hge
  · rw [min_eq_right hle]
    have : ⌊(255 - luminance p) * 1.8⌋ ≤ 255 := by
      calc ⌊(255 - luminance p) * 1.8⌋ ≤ ⌊(255 : ℚ)⌋ := Int.floor_le_floor hle
        _ = 255 := by norm_num
    rw [min_eq_right this]
  · rw [min_eq_left hge]
    have : (255 : ℤ) ≤ ⌊(255 - luminance p) * 1.8⌋ := by
      rw [Int.le_floor]
      exact_mod_cast hge
    rw [min_eq_left this]
    norm_num

/-- Witness for C1 (amended) at the all-black pixel: luminance 0 is below 180,
and the alpha equals the clamped, truncated value there. -/
theorem alpha_formula_truncated_witness :
    luminance ⟨0, 0, 0, 255⟩ < 180 ∧
    alphaOf ⟨0, 0, 0, 255⟩ = (min 255 (max 0 ⌊(255 - luminance ⟨0, 0, 0, 255⟩) * 1.8⌋)).toNat :=
  ⟨by norm_num [luminance], alpha_formula_truncated ⟨0, 0, 0, 255⟩ (by norm_num [luminance])⟩

/-- C1 counterexample: the uniform gray pixel (118, 118, 118) has luminance 118
(masked) and pre-clip alpha 246.6; the code truncates to 246 while the claim's
rounding gives 247. -/
theorem alpha_rounding_counterexample :
    luminance ⟨118, 118, 118, 255⟩ < 180 ∧
    alphaOf ⟨118, 118, 118, 255⟩ = 246 ∧
    alphaSpecRounded ⟨118, 118, 118, 255⟩ = 247 := by
  refine ⟨by norm_num [luminance], ?_, ?_⟩
  · norm_num [alphaOf, lineMask, alphaClipped, toByte, npClip, luminance]
    decide
  · unfold alphaSpecRounded
    rw [round_eq]
    norm_num [luminance]
    decide

/-- The all-black pixel converts to fully opaque white: (255 - 0) * 1.8 = 459
is clipped to 255. -/
theorem convertPixel_black : convertPixel ⟨0, 0, 0, 255⟩ = ⟨255, 255, 255, 255⟩ := by
  simp only [convertPixel, RGBA.mk.injEq, true_and]
  norm_num [alphaOf, lineMask, alphaClipped, toByte, npClip, luminance]
  decide

/-- The all-white pixel converts to fully transparent white: luminance 255 is
at least 180, so the mask clears its alpha. -/
theorem convertPixel_white : convertPixel ⟨255, 255, 255, 255⟩ = ⟨255, 255, 255, 0⟩ := by
  simp only [convertPixel, RGBA.mk.injEq, true_and]
  norm_num [alphaOf, lineMask, alphaClipped, toByte, npClip, luminance]

/-- C8: the 4x4 all-black source yields a 4x4 output that is fully white RGB
with alpha 255 everywhere, its square crop equals the output itself, and the
4x4 all-white source yields alpha 0 at every output pixel. -/
theorem four_by_four_examples :
    convertImage black4 = List.replicate 4 (List.replicate 4 ⟨255, 255, 255, 255⟩) ∧
    squareCrop (convertImage black4) = convertImage black4 ∧
    convertImage white4 = List.replicate 4 (List.replicate 4 ⟨255, 255, 255, 0⟩) := by
  have hb : convertImage black4 = List.replicate 4 (List.replicate 4 ⟨255, 255, 255, 255⟩) := by
    simp [black4, convertImage, List.map_replicate, convertPixel_black]
  have hw : convertImage white4 = List.replicate 4 (List.replicate 4 ⟨255, 255, 255, 0⟩) := by
    simp [white4, convertImage, List.map_replicate, convertPixel_white]
  refine ⟨hb, ?_, hw⟩
  rw [hb]
  decide

/-- convertImage at a position: the conversion of the source pixel there. -/
theorem pixelAt_convertImage (img : Image) (i j : Nat) :
    pixelAt (convertImage img) i j = (pixelAt img i j).map convertPixel := by
  unfold pixelAt convertImage
  rw [List.getElem?_map]
  cases hrow : img[i]? with
  | none => rfl
  | some row => simp [List.getElem?_map]

/-- C2: every output pixel has RGB (255, 255, 255), masked or not, and wherever
the source luminance is at least 180 the output alpha is exactly 0. -/
theorem white_rgb_and_bright_transparent (img : Image) (i j : Nat) (p : RGBA)
    (h : pixelAt img i j = some p) :
    pixelAt (convertImage img) i j = some ⟨255, 255, 255, alphaOf p⟩ ∧
    (180 ≤ luminance p → alphaOf p = 0) := by
  constructor
  · rw [pixelAt_convertImage, h]
    rfl
  · intro hl
    exact alphaOf_unmasked p hl

/-- Witness for C2 at a one-pixel image of luminance 200: the output pixel is
white and, 200 being at least 180, fully transparent. -/
theorem white_rgb_witness :
    pixelAt [[⟨200, 200, 200, 7⟩]] 0 0 = some ⟨200, 200, 200, 7⟩ ∧
    (pixelAt (convertImage [[⟨200, 200, 200, 7⟩]]) 0 0 =
        some ⟨255, 255, 255, alphaOf ⟨200, 200, 200, 7⟩⟩ ∧
      (180 ≤ luminance ⟨200, 200, 200, 7⟩ → alphaOf ⟨200, 200, 200, 7⟩ = 0)) :=
  ⟨by decide,
   white_rgb_and_bright_transparent [[⟨200, 200, 200, 7⟩]] 0 0 ⟨200, 200, 200, 7⟩ (by decide)⟩

/-- C3: on the line mask the output alpha is antitone in luminance (a darker
pixel gets an alpha at least as large), and unmasked pixels get alpha 0. -/
theorem alpha_antitone_and_unmasked_zero (p q u : RGBA)
    (hp : luminance p < 180) (hq : luminance q < 180)
    (hpq : luminance p ≤ luminance q) :
    alphaOf q ≤ alphaOf p ∧ (180 ≤ luminance u → alphaOf u = 0) := by
  constructor
  · rw [alphaOf_masked p hp, alphaOf_masked q hq]
    exact alphaClipped_antitone p q hpq
  · intro hu
    exact alphaOf_unmasked u hu

/-- Witness for C3 at luminances 0 and 118 (both masked) and 255 (unmasked). -/
theorem alpha_antitone_witness :
    luminance ⟨0, 0, 0, 0⟩ < 180 ∧ luminance ⟨118, 118, 118, 0⟩ < 180 ∧
    luminance ⟨0, 0, 0, 0⟩ ≤ luminance ⟨118, 118, 118, 0⟩ ∧
    (alphaOf ⟨118, 118, 118, 0⟩ ≤ alphaOf ⟨0, 0, 0, 0⟩ ∧
      (180 ≤ luminance ⟨255, 255, 255, 0⟩ → alphaOf ⟨255, 255, 255, 0⟩ = 0)) :=
  ⟨by norm_num [luminance], by norm_num [luminance], by norm_num [luminance],
   alpha_antitone_and_unmasked_zero ⟨0, 0, 0, 0⟩ ⟨118, 118, 118, 0⟩ ⟨255, 255, 255, 0⟩
     (by norm_num [luminance]) (by norm_num [luminance]) (by norm_num [luminance])⟩

/-- C4: the output grid has the source's height, its width, and even the exact
length of every single row. -/
theorem output_dims_eq (img : Image) :
    height (convertImage img) = height img ∧
    width (convertImage img) = width img ∧
    (convertImage img).map List.length = img.map List.length := by
  refine ⟨?_, ?_, ?_⟩
  · simp [convertImage, height]
  · cases img with
    | nil => rfl
    | cons row rest => simp [convertImage, width]
  · simp [convertImage, List.map_map, Function.comp_def]

/-- C5: for a rectangular image the square crop has exactly min w h rows, each
of length min w h, and on a 10x4 image the offsets are left = 3, top = 0 by
integer floor division. -/
theorem square_crop_dims (img : Image) (hw : ∀ row ∈ img, row.length = width img) :
    height (squareCrop img) = min (width img) (height img) ∧
    (∀ row ∈ squareCrop img, row.length = min (width img) (height img)) ∧
    cropLeft 10 4 = 3 ∧ cropTop 10 4 = 0 := by
  have htop : cropTop (width img) (height img) ≤ height img - min (width img) (height img) :=
    Nat.div_le_self _ 2
  have hleft : cropLeft (width img) (height img) ≤ width img - min (width img) (height img) :=
    Nat.div_le_self _ 2
  have hsh : min (width img) (height img) ≤ height img := min_le_right _ _
  have hsw : min (width img) (height img) ≤ width img := min_le_left _ _
  refine ⟨?_, ?_, by decide, by decide⟩
  · unfold squareCrop cropImage
    simp only [height] at htop hsh ⊢
    rw [List.length_map, List.length_take, List.length_drop]
    omega
  · intro row hrow
    unfold squareCrop cropImage at hrow
    obtain ⟨r, hr, hfr⟩ := List.mem_map.mp hrow
    have hrimg : r ∈ img := List.mem_of_mem_drop (List.mem_of_mem_take hr)
    have hrlen : r.length = width img := hw r hrimg
    rw [← hfr, List.length_take, List.length_drop, hrlen]
    omega

/-- Witness for C5 at the 10x4 example image: its rows all have length 10, the
crop is 4x4 and the offsets are 3 and 0. -/
theorem square_crop_dims_witness :
    (∀ row ∈ img10x4, row.length = width img10x4) ∧
    (height (squareCrop img10x4) = min (width img10x4) (height img10x4) ∧
      (∀ row ∈ squareCrop img10x4, row.length = min (width img10x4) (height img10x4)) ∧
      cropLeft 10 4 = 3 ∧ cropTop 10 4 = 0) :=
  ⟨by decide, square_crop_dims img10x4 (by decide)⟩

/-- C6 counterexample: with the source loadable and the main destination
writable but the square-crop destination not writable, the run fails, yet the
main output file has already been written to disk. -/
theorem partial_write_counterexample :
    (runScript [[⟨0, 0, 0, 255⟩]] ⟨true, true, false⟩).2 = false ∧
    (runScript [[⟨0, 0, 0, 255⟩]] ⟨true, true, false⟩).1 ≠ [] := by
  constructor
  · rfl
  · simp [runScript]

/-- C6 (amended): each file is written only after its own in-memory computation
succeeds; a failure of the load or of the main write leaves nothing on disk,
but a failure at the square-crop write leaves exactly the already-written main
output file, because the script saves the main output before the crop. -/
theorem write_ordering (img : Image) (env : RunEnv) :
    ((runScript img env).2 = true ↔
      env.loadOk = true ∧ env.mainWriteOk = true ∧ env.squareWriteOk = true) ∧
    (env.loadOk = false ∨ env.mainWriteOk = false → (runScript img env).1 = []) ∧
    (env.loadOk = true → env.mainWriteOk = true → env.squareWriteOk = false →
      (runScript img env).1 = [(outputPath, convertImage img)]) := by
  obtain ⟨l, m, s⟩ := env
  cases l <;> cases m <;> cases s <;> simp [runScript]

/-- Witness for C6 (amended): the square-crop write failing after a successful
main write leaves the main output file on disk. -/
theorem write_ordering_witness :
    (runScript [[⟨1, 2, 3, 4⟩]] ⟨true, true, false⟩).1 =
      [(outputPath, convertImage [[⟨1, 2, 3, 4⟩]])] :=
  (write_ordering [[⟨1, 2, 3, 4⟩]] ⟨true, true, false⟩).2.2 rfl rfl rfl

/-- C7: the conversion is deterministic: two runs on the same source with the
same environment produce identical traces, so identical output files. -/
theorem conversion_deterministic (img1 img2 : Image) (env1 env2 : RunEnv)
    (himg : img1 = img2) (henv : env1 = env2) :
    runScript img1 env1 = runScript img2 env2 := by
  rw [himg, henv]

/-- Witness for C7 at the 4x4 black image with all steps succeeding. -/
theorem conversion_deterministic_witness :
    runScript black4 ⟨true, true, true⟩ = runScript black4 ⟨true, true, true⟩ :=
  conversion_deterministic black4 black4 ⟨true, true, true⟩ ⟨true, true, true⟩ rfl rfl

/-- Pixels agreeing on RGB have equal luminance: the alpha channel never enters
the formula. -/
theorem luminance_congr (p q : RGBA) (h : sameRGB p q) : luminance p = luminance q := by
  obtain ⟨h1, h2, h3⟩ := h
  unfold luminance
  rw [h1, h2, h3]

/-- Pixels agreeing on RGB convert to the same output pixel. -/
theorem convertPixel_congr (p q : RGBA) (h : sameRGB p q) : convertPixel p = convertPixel q := by
  unfold convertPixel alphaOf lineMask alphaClipped
  rw [luminance_congr p q h]

/-- Rows agreeing pixelwise on RGB convert to the same output row. -/
theorem row_convert_congr (r1 r2 : List RGBA) (h : List.Forall₂ sameRGB r1 r2) :
    r1.map convertPixel = r2.map convertPixel := by
  induction h with
  | nil => rfl
  | cons hpq _ ih => simp [ih, convertPixel_congr _ _ hpq]

/-- C9: two sources of equal shape that agree on R, G and B everywhere produce
the same output image and the same square crop, whatever their alphas are. -/
theorem output_ignores_source_alpha (img1 img2 : Image)
    (h : List.Forall₂ (List.Forall₂ sameRGB) img1 img2) :
    convertImage img1 = convertImage img2 ∧
    squareCrop (convertImage img1) = squareCrop (convertImage img2) := by
  have hconv : convertImage img1 = convertImage img2 := by
    unfold convertImage
    induction h with
    | nil => rfl
    | cons hrow _ ih =>
        simp only [List.map_cons]
        rw [row_convert_congr _ _ hrow]
        rw [ih]
  exact ⟨hconv, by rw [hconv]⟩

/-- Witness for C9 at two one-pixel images equal on RGB, with alphas 0 and
200. -/
theorem output_ignores_alpha_witness :
    List.Forall₂ (List.Forall₂ sameRGB) [[⟨10, 20, 30, 0⟩]] [[⟨10, 20, 30, 200⟩]] ∧
    (convertImage [[⟨10, 20, 30, 0⟩]] = convertImage [[⟨10, 20, 30, 200⟩]] ∧
      squareCrop (convertImage [[⟨10, 20, 30, 0⟩]]) =
        squareCrop (convertImage [[⟨10, 20, 30, 200⟩]])) :=
  ⟨List.Forall₂.cons (List.Forall₂.cons ⟨rfl, rfl, rfl⟩ List.Forall₂.nil) List.Forall₂.nil,
   output_ignores_source_alpha [[⟨10, 20, 30, 0⟩]] [[⟨10, 20, 30, 200⟩]]
     (List.Forall₂.cons (List.Forall₂.cons ⟨rfl, rfl, rfl⟩ List.Forall₂.nil) List.Forall₂.nil)⟩

/-- C10: every pixel of the output image has alpha 0 or alpha at least 135; no
output alpha lies strictly between 0 and 135. -/
theorem alpha_zero_or_large (img : Image) :
    ∀ row ∈ convertImage img, ∀ p ∈ row, p.a = 0 ∨ 135 ≤ p.a := by
  intro row hrow p hp
  unfold convertImage at hrow
  obtain ⟨r, _, hfr⟩ := List.mem_map.mp hrow
  rw [← hfr] at hp
  obtain ⟨x, _, hfx⟩ := List.mem_map.mp hp
  rw [← hfx]
  show alphaOf x = 0 ∨ 135 ≤ alphaOf x
  by_cases hx : luminance x < 180
  · right
    rw [alphaOf_masked x hx]
    exact alphaClipped_ge x hx
  · left
    exact alphaOf_unmasked x (not_lt.mp hx)

/-- Witness for C10 at a one-pixel black image: its single output pixel has
alpha 255, which is at least 135. -/
theorem alpha_zero_or_large_witness :
    [convertPixel ⟨9, 9, 9, 9⟩] ∈ convertImage [[⟨9, 9, 9, 9⟩]] ∧
    convertPixel ⟨9, 9, 9, 9⟩ ∈ [convertPixel ⟨9, 9, 9, 9⟩] ∧
    ((convertPixel ⟨9, 9, 9, 9⟩).a = 0 ∨ 135 ≤ (convertPixel ⟨9, 9, 9, 9⟩).a) :=
  ⟨List.mem_singleton.mpr rfl, List.mem_singleton.mpr rfl,
   alpha_zero_or_large [[⟨9, 9, 9, 9⟩]] [convertPixel ⟨9, 9, 9, 9⟩]
     (List.mem_singleton.mpr rfl) (convertPixel ⟨9, 9, 9, 9⟩) (List.mem_singleton.mpr rfl)⟩
